import Mathlib

/-!
# Verification of the surrealdb.js client core

A shallow embedding of the client's RPC result handling, the event hub
(`Emitter`), the inbound-message demultiplexer, and the connection /
authentication state machine, together with theorems that settle the
specification's claims about them.

Source files embedded here:
* `client.ts` (the `Surreal` class): output handlers, method facades,
  `#init`, `authenticate`, `signin`/`signup`, the `connect` handlers and
  `wait`;
* `classes/emitter.ts`: the `Emitter` publish/subscribe hub;
* `errors/index.ts`: the error classes;
* `types/index.ts`: the `Result` tagged union.
-/

/-! ## JSON-compatible values and the wire `Result` union -/

/-- A JSON-compatible structured value, as carried by the wire protocol. -/
inductive Val where
  | null
  | str (s : String)
  | num (n : Int)
  | arr (xs : List Val)
  | obj (fields : List (String × Val))

/-- JavaScript truthiness of a defined value (`types/index.ts` keeps the
token a string; `client.ts` line 450 tests `!this.#token`, which is false
for the empty string and for `0`). -/
def jsTruthy : Val → Bool
  | Val.null => false
  | Val.str s => !(s == "")
  | Val.num n => !(n == 0)
  | Val.arr _ => true
  | Val.obj _ => true

/-- The `Result<T>` tagged union of `types/index.ts`: exactly one of
`result` and `error` is populated. -/
inductive RpcResult where
  | ok (v : Val)
  | err (message : String)

/-- Reading `res.result`: the payload of an `Ok` result, `undefined`
(here `none`) on the error variant. -/
def resultVal : RpcResult → Option Val
  | RpcResult.ok v => some v
  | RpcResult.err _ => none

/-- The error classes of `errors/index.ts`, plus the base `Error` class and
the engine-raised `TypeError` (accessing a property of `undefined`). -/
inductive ErrClass where
  | error
  | authenticationError
  | permissionError
  | recordError
  | typeError
  deriving DecidableEq, Repr

/-- A thrown JavaScript error: its class and its message. -/
structure SErr where
  cls : ErrClass
  message : String
  deriving DecidableEq, Repr

/-- `id.includes(":")` (client.ts 495): whether the target identifier
contains the table/record separator, i.e. names a specific record. -/
def includesColon (s : String) : Bool := s.data.contains ':'

/-! ## The output handlers of `client.ts` (lines 477-507)

Thrown errors are modelled by the `Except SErr` error track; a `match`
that propagates `Except.error` embeds an uncaught `throw`. -/

namespace Surreal

/-- `#outputHandlerError(res, Err)` (client.ts 502-506): throw
`Err(res.error.message)` when the result is the error variant. Call sites
that omit the second argument pass `ErrClass.error` here, matching the
`Err = Error` default. -/
def outputHandlerError (res : RpcResult) (e : ErrClass) : Except SErr Unit :=
  match res with
  | RpcResult.err m => Except.error ⟨e, m⟩
  | RpcResult.ok _ => Except.ok ()

/-- `#outputHandlerA(res, Err, errormessage)` (client.ts 477-486): if
`res.result` is a non-empty array, return its first element; otherwise
throw `Err(errormessage)`. -/
def outputHandlerA (res : RpcResult) (e : ErrClass) (errormessage : String) :
    Except SErr Val :=
  match resultVal res with
  | some (Val.arr (x :: _)) => Except.ok x
  | _ => Except.error ⟨e, errormessage⟩

/-- `#outputHandlerB(res, id, Err, errormessage)` (client.ts 488-500):
first the error-variant check with the base `Error` class; then, when `id`
contains `':'` (record form), it calls `#outputHandlerA` but discards its
value — the branch has no `return`, so the function yields `undefined`
(here `none`) on a non-empty result while still throwing on an empty one;
on the table form it returns `res.result` unmodified. -/
def outputHandlerB (res : RpcResult) (id : String) (e : ErrClass)
    (errormessage : String) : Except SErr (Option Val) :=
  match outputHandlerError res ErrClass.error with
  | Except.error err => Except.error err
  | Except.ok _ =>
    if includesColon id then
      match outputHandlerA res e errormessage with
      | Except.error err => Except.error err
      | Except.ok _ => Except.ok none
    else
      Except.ok (resultVal res)

/-! ## Method facades (result interpretation)

Each facade sends `(method, params)` through `#send` and interprets the
peer's `Result`; the embedding takes that peer result as a parameter. -/

/-- `select(thing)` (client.ts 340-349): `#outputHandlerB` with
`RecordError` and a not-found message naming the target. -/
def select (thing : String) (res : RpcResult) : Except SErr (Option Val) :=
  outputHandlerB res thing ErrClass.recordError ("Record not found: " ++ thing)

/-- `create(thing, data)` (client.ts 356-369): generic error check, then
`#outputHandlerA` with `PermissionError`. -/
def create (thing : String) (res : RpcResult) : Except SErr Val :=
  match outputHandlerError res ErrClass.error with
  | Except.error err => Except.error err
  | Except.ok _ =>
    outputHandlerA res ErrClass.permissionError ("Unable to create record: " ++ thing)

/-- `update(thing, data)` (client.ts 378-390): `#outputHandlerB` with
`PermissionError`. -/
def update (thing : String) (res : RpcResult) : Except SErr (Option Val) :=
  outputHandlerB res thing ErrClass.permissionError ("Unable to update record: " ++ thing)

/-- `change(thing, data)` (client.ts 399-414): `#outputHandlerB` with
`PermissionError`. -/
def change (thing : String) (res : RpcResult) : Except SErr (Option Val) :=
  outputHandlerB res thing ErrClass.permissionError ("Unable to update record: " ++ thing)

/-- `modify(thing, data)` (client.ts 423-432): `#outputHandlerB` with
`PermissionError`. -/
def modify (thing : String) (res : RpcResult) : Except SErr (Option Val) :=
  outputHandlerB res thing ErrClass.permissionError ("Unable to update record: " ++ thing)

/-- `delete(thing)` (client.ts 438-443): generic error check only, then
returns nothing. -/
def delete (thing : String) (res : RpcResult) : Except SErr Unit :=
  match outputHandlerError res ErrClass.error with
  | Except.error err => Except.error err
  | Except.ok _ => Except.ok ()

end Surreal

/-! ## C1: `select` on a record-form target -/

/-- C1 (code bug): at the failing input — `select "person:1"` with the peer
answering `Ok` with a one-element sequence — the code resolves to
`undefined` (`none`) instead of the record, because `#outputHandlerB`
discards `#outputHandlerA`'s value in the record-form branch; the
empty-sequence half of the claim (a `RecordError` naming the target) does
hold. -/
theorem select_record_missing_return_eval :
    Surreal.select "person:1" (RpcResult.ok (Val.arr [Val.obj [("id", Val.str "person:1")]]))
      = Except.ok none ∧
    Surreal.select "person:1" (RpcResult.ok (Val.arr []))
      = Except.error ⟨ErrClass.recordError, "Record not found: person:1"⟩ := by
  constructor <;> rfl

/-! ## C2: error variant on record-mutating operations -/

/-- C2 counterexample: `delete "person"` with the peer answering the error
variant throws the base `Error` class carrying the peer's message, not a
`PermissionError` — `#outputHandlerError` is invoked with its default
`Error` argument on every mutating path. -/
theorem delete_err_is_generic_counterexample :
    Surreal.delete "person" (RpcResult.err "boom")
      = Except.error ⟨ErrClass.error, "boom"⟩ ∧
    ErrClass.error ≠ ErrClass.permissionError := by
  constructor
  · rfl
  · decide

/-- C2 amended: on the error variant, every record-mutating operation
(create, update, change, modify, delete) fails with the base `Error` class
carrying the peer's message; `PermissionError` appears only in the locally
constructed empty-result errors of the single-or-throw check. -/
theorem mutating_ops_err_variant_generic (thing msg : String) :
    Surreal.create thing (RpcResult.err msg) = Except.error ⟨ErrClass.error, msg⟩ ∧
    Surreal.update thing (RpcResult.err msg) = Except.error ⟨ErrClass.error, msg⟩ ∧
    Surreal.change thing (RpcResult.err msg) = Except.error ⟨ErrClass.error, msg⟩ ∧
    Surreal.modify thing (RpcResult.err msg) = Except.error ⟨ErrClass.error, msg⟩ ∧
    Surreal.delete thing (RpcResult.err msg) = Except.error ⟨ErrClass.error, msg⟩ :=
  ⟨rfl, rfl, rfl, rfl, rfl⟩

/-! ## C5: `select` dispatches on the target form -/

/-- C5 counterexample: `select "person"` (table form) with the peer
answering `Ok` with a two-element sequence returns the full sequence
unmodified — `select` does not apply single-or-throw unconditionally. -/
theorem select_table_returns_sequence_counterexample :
    Surreal.select "person" (RpcResult.ok (Val.arr [Val.num 1, Val.num 2]))
      = Except.ok (some (Val.arr [Val.num 1, Val.num 2])) := by
  rfl

/-- C5 amended: `select` applies table-vs-record dispatch. A table-form
target (no `':'`) gets the full `Ok` result unmodified; a record-form
target gets the single-or-throw check — `RecordError` naming the target on
an empty sequence, and (owing to the missing `return` in
`#outputHandlerB`, see C1) `undefined` rather than the first element on a
non-empty one. -/
theorem select_dispatches_on_target_form (thing : String) (v x : Val) (xs : List Val) :
    (includesColon thing = false →
      Surreal.select thing (RpcResult.ok v) = Except.ok (some v)) ∧
    (includesColon thing = true →
      Surreal.select thing (RpcResult.ok (Val.arr []))
        = Except.error ⟨ErrClass.recordError, "Record not found: " ++ thing⟩ ∧
      Surreal.select thing (RpcResult.ok (Val.arr (x :: xs)))
        = Except.ok none) := by
  constructor
  · intro h
    simp [Surreal.select, Surreal.outputHandlerB, Surreal.outputHandlerError, h, resultVal]
  · intro h
    constructor <;>
      simp [Surreal.select, Surreal.outputHandlerB, Surreal.outputHandlerError, h,
        Surreal.outputHandlerA, resultVal]

/-- Witness for `select_dispatches_on_target_form` at concrete targets. -/
theorem select_dispatches_on_target_form_witness :
    includesColon "person" = false ∧
    includesColon "person:1" = true ∧
    Surreal.select "person" (RpcResult.ok (Val.arr [])) = Except.ok (some (Val.arr [])) ∧
    Surreal.select "person:1" (RpcResult.ok (Val.arr [Val.num 7])) = Except.ok none := by
  refine ⟨rfl, rfl, ?_, ?_⟩
  · exact (select_dispatches_on_target_form "person" (Val.arr []) Val.null []).1 rfl
  · exact ((select_dispatches_on_target_form "person:1" Val.null (Val.num 7) []).2 rfl).2

/-! ## C4: RPC operations invoked before `connect`

`#send` (client.ts 461-475) awaits `this.wait()` when its `wait` flag is
true, and only `this.#ws.ready` when it is false. Before `connect` has
ever been called, `this.#ws` is still `undefined`: `wait()` (client.ts
184-192) then throws the usage error, while `this.#ws.ready` raises a
`TypeError` for reading a property of `undefined`. -/

/-- The public RPC operations of the `Surreal` class. `letVar` stands for
the `let` method (a reserved word here). -/
inductive RpcOp where
  | ping | use | info | signup | signin | invalidate | authenticate
  | live | kill | letVar | query | select | create | update | change
  | modify | delete
  deriving DecidableEq, Repr

/-- The `wait` flag each facade passes to `#send`: `authenticate` passes
`false` (client.ts 279); every other facade uses the default `true`. -/
def sendWaitFlag : RpcOp → Bool
  | RpcOp.authenticate => false
  | _ => true

/-- How a call fails before `connect` was ever invoked. -/
inductive PreConnectOutcome where
  | usageError (msg : String)
  | typeErrorUndefinedRead (prop : String)
  deriving DecidableEq, Repr

/-- What `#send` does when `this.#ws` is still `undefined`: the
`wait = true` path throws the usage error from `wait()`; the
`wait = false` path evaluates `this.#ws.ready` and raises a `TypeError`. -/
def sendBeforeConnect (wait : Bool) : PreConnectOutcome :=
  if wait then
    PreConnectOutcome.usageError "You have to call .connect before any other method!"
  else
    PreConnectOutcome.typeErrorUndefinedRead "ready"

/-- The failure each public RPC operation produces before `connect`. -/
def callBeforeConnect (op : RpcOp) : PreConnectOutcome :=
  sendBeforeConnect (sendWaitFlag op)

/-- C4 counterexample: `authenticate` invoked before `connect` does not
fail with the usage error — it skips `wait()` (passing `wait = false` to
`#send`) and instead raises a `TypeError` from reading `ready` on the
`undefined` transport handle. -/
theorem authenticate_before_connect_counterexample :
    callBeforeConnect RpcOp.authenticate
      = PreConnectOutcome.typeErrorUndefinedRead "ready" ∧
    callBeforeConnect RpcOp.authenticate
      ≠ PreConnectOutcome.usageError "You have to call .connect before any other method!" := by
  constructor
  · rfl
  · decide

/-- C4 amended: every public RPC operation except `authenticate`, invoked
before `connect` has ever been called, fails fast with the usage error
("call .connect before any other method"); `authenticate` alone fails with
a `TypeError` from the `undefined` transport handle instead. -/
theorem rpc_before_connect_usage_error (op : RpcOp) (h : op ≠ RpcOp.authenticate) :
    callBeforeConnect op
      = PreConnectOutcome.usageError "You have to call .connect before any other method!" := by
  cases op <;> first
    | rfl
    | exact absurd rfl h

/-- Witness for `rpc_before_connect_usage_error` at `query`. -/
theorem rpc_before_connect_usage_error_witness :
    RpcOp.query ≠ RpcOp.authenticate ∧
    callBeforeConnect RpcOp.query
      = PreConnectOutcome.usageError "You have to call .connect before any other method!" :=
  ⟨by decide, rpc_before_connect_usage_error RpcOp.query (by decide)⟩

/-! ## The event hub: `classes/emitter.ts`

Listener sets are JavaScript `Set`s keyed by event name: insertion-ordered,
duplicate-free collections. The key maps (`#events`, `#eventsOnce`) are
modelled as insertion-ordered association lists from keys to listener-id
lists; listeners themselves are identified by numeric ids whose behaviour
(normal return or throw) is supplied externally. -/

/-- A key-indexed map of listener lists, in insertion order. -/
abbrev KeyMap := List (String × List Nat)

/-- The listeners registered under `k` (the empty list when `k` has no
entry), in insertion order — JavaScript `Set` iteration order. -/
def lookupKey (m : KeyMap) (k : String) : List Nat :=
  match m.find? (fun p => p.1 == k) with
  | some p => p.2
  | none => []

/-- `Set.add` under key `k`: append `l` to the entry for `k` (creating the
entry if needed) unless it is already present. -/
def addToKey (m : KeyMap) (k : String) (l : Nat) : KeyMap :=
  match m with
  | [] => [(k, [l])]
  | (k', ls) :: rest =>
    if k' == k then (k', if l ∈ ls then ls else ls ++ [l]) :: rest
    else (k', ls) :: addToKey rest k l

/-- `delete map[k]`: drop the entry for `k` entirely. -/
def removeKeyEntry (m : KeyMap) (k : String) : KeyMap :=
  m.filter (fun p => !(p.1 == k))

/-- The `Emitter`'s two listener tables (emitter.ts 16-22). -/
structure EmitterState where
  events : KeyMap
  eventsOnce : KeyMap

/-- An emitter with no listeners at all. -/
def emptyEmitter : EmitterState := ⟨[], []⟩

namespace Emitter

/-- `on(eventName, listener)` (emitter.ts 33-42): add to the persistent
set for the key. (`on` is a reserved token in Lean, hence the name.) -/
def onEv (st : EmitterState) (k : String) (l : Nat) : EmitterState :=
  { st with events := addToKey st.events k l }

/-- `once(eventName, listener)` (emitter.ts 59-68): add to the one-shot
set for the key. -/
def once (st : EmitterState) (k : String) (l : Nat) : EmitterState :=
  { st with eventsOnce := addToKey st.eventsOnce k l }

/-- One `forEach` pass over a listener list, where `thr l = true` means
listener `l` throws when invoked. JavaScript `forEach` has no exception
handling: a throw terminates the iteration and propagates. Returns the
listeners that were invoked (the first throwing one included) and the
propagating exception, if any. -/
def runListeners (thr : Nat → Bool) : List Nat → List Nat × Option Nat
  | [] => ([], none)
  | l :: ls =>
    if thr l then ([l], some l)
    else
      let r := runListeners thr ls
      (l :: r.1, r.2)

/-- `emit(eventName, ...args)` (emitter.ts 70-82) with listener behaviour
`thr`: `forEach` over the persistent set, then `forEach` over the one-shot
set, then `delete` the one-shot entry. A throw anywhere aborts the
remainder — in particular the one-shot entry is not cleared. Returns the
invoked listeners in order, the escaping exception if any, and the new
state. -/
def emitWithThrows (thr : Nat → Bool) (st : EmitterState) (k : String) :
    List Nat × Option Nat × EmitterState :=
  let r1 := runListeners thr (lookupKey st.events k)
  match r1.2 with
  | some e => (r1.1, some e, st)
  | none =>
    let r2 := runListeners thr (lookupKey st.eventsOnce k)
    match r2.2 with
    | some e => (r1.1 ++ r2.1, some e, st)
    | none =>
      (r1.1 ++ r2.1, none, { st with eventsOnce := removeKeyEntry st.eventsOnce k })

/-- `emit` when no listener throws: the common specialisation used by the
demultiplexer and the operation-sequence claims. -/
def emit (st : EmitterState) (k : String) : List Nat × EmitterState :=
  let r := emitWithThrows (fun _ => false) st k
  (r.1, r.2.2)

/-- A non-throwing `forEach` pass invokes every listener in order. -/
theorem runListeners_no_throw (ls : List Nat) :
    runListeners (fun _ => false) ls = (ls, none) := by
  induction ls with
  | nil => rfl
  | cons l ls ih => simp [runListeners, ih]

/-- `emit` without throwing listeners: persistent listeners in insertion
order, then one-shot listeners in insertion order, then the one-shot entry
for the key is removed. -/
theorem emit_eq (st : EmitterState) (k : String) :
    emit st k = (lookupKey st.events k ++ lookupKey st.eventsOnce k,
      { st with eventsOnce := removeKeyEntry st.eventsOnce k }) := by
  simp [emit, emitWithThrows, runListeners_no_throw]

/-- A `forEach` pass stops at the first throwing listener: the invoked
listeners are the non-throwing prefix plus that listener, and its
exception is reported. -/
theorem runListeners_first_throw (thr : Nat → Bool) (ls : List Nat) :
    runListeners thr ls =
      (ls.takeWhile (fun l => !thr l) ++ (ls.dropWhile (fun l => !thr l)).take 1,
       (ls.dropWhile (fun l => !thr l)).head?) := by
  induction ls with
  | nil => rfl
  | cons l ls ih =>
    by_cases h : thr l
    · simp [runListeners, h, List.takeWhile_cons, List.dropWhile_cons]
    · simp [runListeners, h, List.takeWhile_cons, List.dropWhile_cons, ih]

end Emitter

/-! ## C3: a throwing listener during `emit` -/

/-- C3 counterexample: with persistent listeners `[0, 1]` registered for
`"k"` (in that order) and listener `0` throwing, `emit` invokes only
listener `0` — listener `1`, registered after it, never runs — and the
exception escapes `emit` to the publisher. -/
theorem emit_throwing_listener_counterexample :
    (Emitter.emitWithThrows (fun x => x == 0) ⟨[("k", [0, 1])], []⟩ "k").1 = [0] ∧
    1 ∉ (Emitter.emitWithThrows (fun x => x == 0) ⟨[("k", [0, 1])], []⟩ "k").1 ∧
    (Emitter.emitWithThrows (fun x => x == 0) ⟨[("k", [0, 1])], []⟩ "k").2.1 = some 0 := by
  refine ⟨rfl, ?_, rfl⟩
  simp [Emitter.emitWithThrows, Emitter.runListeners, lookupKey, List.find?]

/-- C3 amended: when some persistent listener for the key throws, `emit`
stops at the first throwing listener — exactly the non-throwing prefix and
that listener run, no later persistent listener and no one-shot listener
runs — the exception propagates to the publisher, and the emitter state is
left unchanged (in particular the one-shot set is not cleared). -/
theorem emit_throwing_listener_aborts (thr : Nat → Bool) (st : EmitterState) (k : String)
    (h : ∃ x ∈ lookupKey st.events k, thr x = true) :
    (Emitter.emitWithThrows thr st k).1 =
      (lookupKey st.events k).takeWhile (fun l => !thr l) ++
        ((lookupKey st.events k).dropWhile (fun l => !thr l)).take 1 ∧
    (Emitter.emitWithThrows thr st k).2.1 =
      ((lookupKey st.events k).dropWhile (fun l => !thr l)).head? ∧
    (Emitter.emitWithThrows thr st k).2.1 ≠ none ∧
    (Emitter.emitWithThrows thr st k).2.2 = st := by
  obtain ⟨x, hmem, hx⟩ := h
  have hdrop : ((lookupKey st.events k).dropWhile (fun l => !thr l)).head? ≠ none := by
    intro hnone
    have : (lookupKey st.events k).dropWhile (fun l => !thr l) = [] :=
      List.head?_eq_none_iff.mp hnone
    have hall := List.dropWhile_eq_nil_iff.mp this
    have := hall x hmem
    simp [hx] at this
  unfold Emitter.emitWithThrows
  rw [Emitter.runListeners_first_throw]
  cases hh : ((lookupKey st.events k).dropWhile (fun l => !thr l)).head? with
  | none => exact absurd hh hdrop
  | some e => simp

/-- Witness for `emit_throwing_listener_aborts`: a two-listener hub whose
first listener throws. -/
theorem emit_throwing_listener_aborts_witness :
    (∃ x ∈ lookupKey [("k", [0, 1])] "k", (fun y => y == 0) x = true) ∧
    (Emitter.emitWithThrows (fun y => y == 0) ⟨[("k", [0, 1])], [("k", [5])]⟩ "k").2.2
      = ⟨[("k", [0, 1])], [("k", [5])]⟩ :=
  ⟨⟨0, by simp [lookupKey, List.find?], rfl⟩,
   (emit_throwing_listener_aborts (fun y => y == 0) ⟨[("k", [0, 1])], [("k", [5])]⟩ "k"
      ⟨0, by simp [lookupKey, List.find?], rfl⟩).2.2.2⟩

/-! ## C6: inbound-message demultiplexing (client.ts 149-161)

The socket `message` handler parses the payload and either fans a notify
message's params out under the `"notify"` key or publishes the whole
message under its own `id`. -/

/-- The fields of a parsed inbound message that the handler reads:
`d.method` (absent on plain responses), `d.id`, `d.params`. -/
structure WireMsg where
  method : Option String
  id : String
  params : List Val

/-- A published payload: either the whole response message (`emit(d.id, d)`)
or one notification parameter (`emit("notify", r)`). -/
inductive Payload where
  | msg (d : WireMsg)
  | val (v : Val)

/-- The socket `message` handler (client.ts 149-161) as the ordered list of
`emit` calls it performs: a non-notify message is published once under its
own `id`; a notify message's `params` are published one by one, in list
order, under `"notify"`. -/
def onSocketMessage (d : WireMsg) : List (String × Payload) :=
  if d.method ≠ some "notify" then
    [(d.id, Payload.msg d)]
  else
    d.params.map (fun r => ("notify", Payload.val r))

/-- Deleting a key that has no entry leaves the key map unchanged. -/
theorem removeKeyEntry_of_find?_none (m : KeyMap) (key : String)
    (h : m.find? (fun p => p.1 == key) = none) : removeKeyEntry m key = m := by
  have hall := List.find?_eq_none.mp h
  refine List.filter_eq_self.mpr ?_
  intro a ha
  simpa using hall a ha

/-- C6: demultiplexing of inbound messages. A notify message publishes each
params element under `"notify"` in list order; any other message is
published once under its own `id`. Publishing under a key with no
subscriber is a no-op: no listener runs, and when the one-shot table has no
entry for the key the emitter state is unchanged. Publishing under an id
whose one-shot table holds at most one pending listener (distinct ids give
distinct keys) resolves at most one of them. -/
theorem inbound_demux (d : WireMsg) :
    (d.method = some "notify" →
      onSocketMessage d = d.params.map (fun r => ("notify", Payload.val r))) ∧
    (d.method ≠ some "notify" →
      onSocketMessage d = [(d.id, Payload.msg d)]) ∧
    (∀ (st : EmitterState) (key : String),
      lookupKey st.events key = [] → lookupKey st.eventsOnce key = [] →
        (Emitter.emit st key).1 = []) ∧
    (∀ (st : EmitterState) (key : String),
      st.eventsOnce.find? (fun p => p.1 == key) = none →
        (Emitter.emit st key).2.eventsOnce = st.eventsOnce) ∧
    (∀ (st : EmitterState) (key : String),
      lookupKey st.events key = [] → (lookupKey st.eventsOnce key).length ≤ 1 →
        (Emitter.emit st key).1.length ≤ 1) := by
  refine ⟨fun h => by simp [onSocketMessage, h], fun h => by simp [onSocketMessage, h],
    ?_, ?_, ?_⟩
  · intro st key h1 h2
    simp [Emitter.emit_eq, h1, h2]
  · intro st key h
    simp [Emitter.emit_eq, removeKeyEntry_of_find?_none st.eventsOnce key h]
  · intro st key h1 h2
    simp [Emitter.emit_eq, h1, h2]

/-- Witness for `inbound_demux`: a notify fan-out, a response publish, and
a publish under an unknown id against a hub holding one unrelated pending
call. -/
theorem inbound_demux_witness :
    onSocketMessage ⟨some "notify", "", [Val.num 1, Val.num 2]⟩
      = [("notify", Payload.val (Val.num 1)), ("notify", Payload.val (Val.num 2))] ∧
    onSocketMessage ⟨none, "id9", []⟩ = [("id9", Payload.msg ⟨none, "id9", []⟩)] ∧
    (Emitter.emit ⟨[], [("id7", [3])]⟩ "id9").1 = [] ∧
    (Emitter.emit ⟨[], [("id7", [3])]⟩ "id9").2.eventsOnce = [("id7", [3])] := by
  refine ⟨(inbound_demux _).1 rfl, (inbound_demux _).2.1 (by simp), ?_, ?_⟩
  · exact (inbound_demux ⟨none, "id9", []⟩).2.2.1 ⟨[], [("id7", [3])]⟩ "id9" rfl rfl
  · refine (inbound_demux ⟨none, "id9", []⟩).2.2.2.1 ⟨[], [("id7", [3])]⟩ "id9" ?_
    simp [List.find?]

/-! ## C7: one-shot listeners over operation sequences

Sequences of `on` / `once` / `emit` calls on one hub, with the listeners
fired at each `emit` recorded. The key-map lemmas below characterise
`addToKey` (JavaScript `Set.add` under a key) and `removeKeyEntry`
(`delete map[key]`) as seen through `lookupKey`. -/

/-- Unfolding `lookupKey` over a cons cell. -/
theorem lookupKey_cons (p : String × List Nat) (rest : KeyMap) (k : String) :
    lookupKey (p :: rest) k = if p.1 = k then p.2 else lookupKey rest k := by
  by_cases h : p.1 = k
  · simp [lookupKey, List.find?, h]
  · simp [lookupKey, List.find?, beq_false_of_ne h, h]

/-- Unfolding `addToKey` over a cons cell. -/
theorem addToKey_cons (p : String × List Nat) (rest : KeyMap) (k : String) (l : Nat) :
    addToKey (p :: rest) k l =
      if p.1 = k then (p.1, if l ∈ p.2 then p.2 else p.2 ++ [l]) :: rest
      else p :: addToKey rest k l := by
  obtain ⟨k'', ls⟩ := p
  by_cases h : k'' = k
  · simp [addToKey, h]
  · simp [addToKey, beq_false_of_ne h, h]

/-- Unfolding `removeKeyEntry` over a cons cell. -/
theorem removeKeyEntry_cons (p : String × List Nat) (rest : KeyMap) (k : String) :
    removeKeyEntry (p :: rest) k =
      if p.1 = k then removeKeyEntry rest k else p :: removeKeyEntry rest k := by
  by_cases h : p.1 = k
  · simp [removeKeyEntry, List.filter_cons, h]
  · simp [removeKeyEntry, List.filter_cons, beq_false_of_ne h, h]

/-- Looking up a key other than the one just added to is unchanged. -/
theorem lookupKey_addToKey_ne (m : KeyMap) (k0 k : String) (l0 : Nat)
    (h : k0 ≠ k) : lookupKey (addToKey m k0 l0) k = lookupKey m k := by
  induction m with
  | nil => simp [addToKey, lookupKey_cons, h, lookupKey]
  | cons p rest ih =>
    rw [addToKey_cons]
    by_cases hk : p.1 = k0
    · rw [if_pos hk, lookupKey_cons, lookupKey_cons]
      simp only [hk]
      rw [if_neg h, if_neg h]
    · rw [if_neg hk, lookupKey_cons, lookupKey_cons, ih]

/-- Looking up the key just added to: the listener is appended unless it
was already present. -/
theorem lookupKey_addToKey_same (m : KeyMap) (k : String) (l0 : Nat) :
    lookupKey (addToKey m k l0) k =
      if l0 ∈ lookupKey m k then lookupKey m k else lookupKey m k ++ [l0] := by
  induction m with
  | nil => simp [addToKey, lookupKey_cons, lookupKey]
  | cons p rest ih =>
    rw [addToKey_cons]
    by_cases hk : p.1 = k
    · rw [if_pos hk, lookupKey_cons, lookupKey_cons]
      simp [hk]
    · rw [if_neg hk, lookupKey_cons, lookupKey_cons, ih, if_neg hk, if_neg hk]

/-- Any listener found after an `addToKey` was either already there or is
the one just added. -/
theorem mem_lookupKey_addToKey (m : KeyMap) (k0 k : String) (l0 x : Nat)
    (h : x ∈ lookupKey (addToKey m k0 l0) k) : x ∈ lookupKey m k ∨ x = l0 := by
  by_cases hk : k0 = k
  · subst hk
    rw [lookupKey_addToKey_same] at h
    by_cases hmem : l0 ∈ lookupKey m k0
    · rw [if_pos hmem] at h
      exact Or.inl h
    · rw [if_neg hmem] at h
      rcases List.mem_append.mp h with h | h
      · exact Or.inl h
      · exact Or.inr (List.mem_singleton.mp h)
  · rw [lookupKey_addToKey_ne m k0 k l0 hk] at h
    exact Or.inl h

/-- Looking up the key just deleted yields nothing. -/
theorem lookupKey_removeKeyEntry_same (m : KeyMap) (k : String) :
    lookupKey (removeKeyEntry m k) k = [] := by
  induction m with
  | nil => rfl
  | cons p rest ih =>
    rw [removeKeyEntry_cons]
    by_cases hk : p.1 = k
    · rw [if_pos hk]
      exact ih
    · rw [if_neg hk, lookupKey_cons, if_neg hk]
      exact ih

/-- Deleting one key leaves every other key's listeners unchanged. -/
theorem lookupKey_removeKeyEntry_ne (m : KeyMap) (k0 k : String) (h : k ≠ k0) :
    lookupKey (removeKeyEntry m k0) k = lookupKey m k := by
  induction m with
  | nil => rfl
  | cons p rest ih =>
    rw [removeKeyEntry_cons]
    by_cases hk : p.1 = k0
    · rw [if_pos hk, lookupKey_cons, ih, if_neg]
      rw [hk]
      exact Ne.symm h
    · rw [if_neg hk, lookupKey_cons, lookupKey_cons, ih]

/-- One client-visible hub operation: `on`, `once`, or `emit` for a key.
Listeners are identified by numeric ids; distinct subscription calls pass
distinct closures, hence distinct ids. -/
inductive EmOp where
  | sub (k : String) (l : Nat)
  | subOnce (k : String) (l : Nat)
  | pub (k : String)
  deriving DecidableEq, Repr

/-- One operation against the hub state; an `emit` also yields the fired
listener list (no listener throws here). -/
def stepOp (st : EmitterState) : EmOp → EmitterState × List Nat
  | EmOp.sub k l => (Emitter.onEv st k l, [])
  | EmOp.subOnce k l => (Emitter.once st k l, [])
  | EmOp.pub k => ((Emitter.emit st k).2, (Emitter.emit st k).1)

/-- Run a sequence of hub operations, collecting one fired-listener list
per operation (empty for subscriptions). -/
def runOps (st : EmitterState) : List EmOp → EmitterState × List (List Nat)
  | [] => (st, [])
  | op :: ops =>
    let r := stepOp st op
    let rest := runOps r.1 ops
    (rest.1, r.2 :: rest.2)

/-- Whether an operation subscribes listener `l` (under any key). -/
def addsL (l : Nat) : EmOp → Bool
  | EmOp.sub _ l' => l' == l
  | EmOp.subOnce _ l' => l' == l
  | EmOp.pub _ => false

/-- Listener `l` is registered nowhere in the hub. -/
def absentL (st : EmitterState) (l : Nat) : Prop :=
  (∀ k, l ∉ lookupKey st.events k) ∧ (∀ k, l ∉ lookupKey st.eventsOnce k)

/-- Listener `l` is registered exactly once, as a one-shot listener under
key `k`, and nowhere else. -/
def pendingL (st : EmitterState) (l : Nat) (k : String) : Prop :=
  (∀ k', l ∉ lookupKey st.events k') ∧
  (lookupKey st.eventsOnce k).count l = 1 ∧
  (∀ k', k' ≠ k → l ∉ lookupKey st.eventsOnce k')

theorem absentL_empty (l : Nat) : absentL emptyEmitter l := by
  constructor <;> intro k <;> simp [emptyEmitter, lookupKey, List.find?]

theorem runOps_append (st : EmitterState) (xs ys : List EmOp) :
    runOps st (xs ++ ys) =
      ((runOps (runOps st xs).1 ys).1,
        (runOps st xs).2 ++ (runOps (runOps st xs).1 ys).2) := by
  induction xs generalizing st with
  | nil => simp [runOps]
  | cons op xs ih => simp [runOps, ih]

theorem runOps_length (st : EmitterState) (ops : List EmOp) :
    (runOps st ops).2.length = ops.length := by
  induction ops generalizing st with
  | nil => rfl
  | cons op ops ih => simp [runOps, ih]

/-- An operation that does not subscribe `l` keeps an absent `l` absent
and does not fire it. -/
theorem stepOp_absentL (st : EmitterState) (l : Nat) (op : EmOp)
    (hab : absentL st l) (hop : addsL l op = false) :
    absentL (stepOp st op).1 l ∧ l ∉ (stepOp st op).2 := by
  obtain ⟨he, ho⟩ := hab
  cases op with
  | sub k' l' =>
    have hne : l' ≠ l := by simpa [addsL] using hop
    refine ⟨⟨fun k hmem => ?_, ho⟩, by simp [stepOp]⟩
    rcases mem_lookupKey_addToKey st.events k' k l' l hmem with h | h
    · exact he k h
    · exact hne h.symm
  | subOnce k' l' =>
    have hne : l' ≠ l := by simpa [addsL] using hop
    refine ⟨⟨he, fun k hmem => ?_⟩, by simp [stepOp]⟩
    rcases mem_lookupKey_addToKey st.eventsOnce k' k l' l hmem with h | h
    · exact ho k h
    · exact hne h.symm
  | pub k' =>
    refine ⟨⟨fun k hmem => ?_, fun k hmem => ?_⟩, ?_⟩
    · simp only [stepOp, Emitter.emit_eq] at hmem
      exact he k hmem
    · simp only [stepOp, Emitter.emit_eq] at hmem
      by_cases hk : k = k'
      · subst hk
        rw [lookupKey_removeKeyEntry_same] at hmem
        exact absurd hmem (List.not_mem_nil l)
      · rw [lookupKey_removeKeyEntry_ne st.eventsOnce k' k hk] at hmem
        exact ho k hmem
    · simp only [stepOp, Emitter.emit_eq]
      intro hmem
      rcases List.mem_append.mp hmem with h | h
      · exact he k' h
      · exact ho k' h

/-- Operations that never subscribe `l` keep it absent and never fire it. -/
theorem runOps_absentL (st : EmitterState) (l : Nat) (ops : List EmOp)
    (hab : absentL st l) (hops : ∀ op ∈ ops, addsL l op = false) :
    absentL (runOps st ops).1 l ∧ ∀ e ∈ (runOps st ops).2, l ∉ e := by
  induction ops generalizing st with
  | nil => exact ⟨hab, by simp [runOps]⟩
  | cons op ops ih =>
    have hstep := stepOp_absentL st l op hab (hops op (List.mem_cons_self op ops))
    have hrest := ih (stepOp st op).1 hstep.1 (fun o ho => hops o (List.mem_cons_of_mem op ho))
    refine ⟨hrest.1, ?_⟩
    intro e he
    simp only [runOps, List.mem_cons] at he
    rcases he with he | he
    · rw [he]; exact hstep.2
    · exact hrest.2 e he

/-- `once k l` on a hub where `l` is absent leaves `l` pending exactly once
under `k`. -/
theorem stepOp_subOnce_pendingL (st : EmitterState) (l : Nat) (k : String)
    (hab : absentL st l) :
    pendingL (stepOp st (EmOp.subOnce k l)).1 l k := by
  obtain ⟨he, ho⟩ := hab
  refine ⟨he, ?_, ?_⟩
  · simp only [stepOp, Emitter.once]
    rw [lookupKey_addToKey_same, if_neg (ho k)]
    rw [List.count_append]
    rw [List.count_eq_zero.mpr (ho k)]
    simp
  · intro k' hk' hmem
    simp only [stepOp, Emitter.once] at hmem
    rw [lookupKey_addToKey_ne st.eventsOnce k k' l (Ne.symm hk')] at hmem
    exact ho k' hmem

/-- An operation that neither subscribes `l` nor publishes to `k` keeps a
pending `l` pending and does not fire it. -/
theorem stepOp_pendingL (st : EmitterState) (l : Nat) (k : String) (op : EmOp)
    (hp : pendingL st l k) (hop : addsL l op = false) (hpub : op ≠ EmOp.pub k) :
    pendingL (stepOp st op).1 l k ∧ l ∉ (stepOp st op).2 := by
  obtain ⟨he, hc, ho⟩ := hp
  cases op with
  | sub k' l' =>
    have hne : l' ≠ l := by simpa [addsL] using hop
    refine ⟨⟨fun k'' hmem => ?_, hc, ho⟩, by simp [stepOp]⟩
    rcases mem_lookupKey_addToKey st.events k' k'' l' l hmem with h | h
    · exact he k'' h
    · exact hne h.symm
  | subOnce k' l' =>
    have hne : l' ≠ l := by simpa [addsL] using hop
    refine ⟨⟨he, ?_, ?_⟩, by simp [stepOp]⟩
    · simp only [stepOp, Emitter.once]
      by_cases hk : k' = k
      · subst hk
        rw [lookupKey_addToKey_same]
        by_cases hmem : l' ∈ lookupKey st.eventsOnce k'
        · rw [if_pos hmem]
          exact hc
        · rw [if_neg hmem, List.count_append]
          have : [l'].count l = 0 := by
            simp [List.count_singleton]
            exact hne
          rw [this, hc]
      · rw [lookupKey_addToKey_ne st.eventsOnce k' k l' hk]
        exact hc
    · intro k'' hk'' hmem
      simp only [stepOp, Emitter.once] at hmem
      rcases mem_lookupKey_addToKey st.eventsOnce k' k'' l' l hmem with h | h
      · exact ho k'' hk'' h
      · exact hne h.symm
  | pub k' =>
    have hk : k' ≠ k := fun h => hpub (by rw [h])
    refine ⟨⟨fun k'' hmem => ?_, ?_, ?_⟩, ?_⟩
    · simp only [stepOp, Emitter.emit_eq] at hmem
      exact he k'' hmem
    · simp only [stepOp, Emitter.emit_eq]
      rw [lookupKey_removeKeyEntry_ne st.eventsOnce k' k (Ne.symm hk)]
      exact hc
    · intro k'' hk'' hmem
      simp only [stepOp, Emitter.emit_eq] at hmem
      by_cases h2 : k'' = k'
      · subst h2
        rw [lookupKey_removeKeyEntry_same] at hmem
        exact absurd hmem (List.not_mem_nil l)
      · rw [lookupKey_removeKeyEntry_ne st.eventsOnce k' k'' h2] at hmem
        exact ho k'' hk'' hmem
    · simp only [stepOp, Emitter.emit_eq]
      intro hmem
      rcases List.mem_append.mp hmem with h | h
      · exact he k' h
      · exact ho k' hk h

/-- Publishing to `k` with `l` pending there fires `l` exactly once and
deregisters it everywhere. -/
theorem stepOp_pub_fires (st : EmitterState) (l : Nat) (k : String)
    (hp : pendingL st l k) :
    (stepOp st (EmOp.pub k)).2.count l = 1 ∧ absentL (stepOp st (EmOp.pub k)).1 l := by
  obtain ⟨he, hc, ho⟩ := hp
  refine ⟨?_, ⟨fun k'' hmem => ?_, fun k'' hmem => ?_⟩⟩
  · simp only [stepOp, Emitter.emit_eq]
    rw [List.count_append, List.count_eq_zero.mpr (he k), hc]
  · simp only [stepOp, Emitter.emit_eq] at hmem
    exact he k'' hmem
  · simp only [stepOp, Emitter.emit_eq] at hmem
    by_cases h2 : k'' = k
    · subst h2
      rw [lookupKey_removeKeyEntry_same] at hmem
      exact absurd hmem (List.not_mem_nil l)
    · rw [lookupKey_removeKeyEntry_ne st.eventsOnce k k'' h2] at hmem
      exact ho k'' h2 hmem

/-- Operations that never subscribe `l` and never publish to `k` keep a
pending `l` pending and never fire it. -/
theorem runOps_pendingL (st : EmitterState) (l : Nat) (k : String) (ops : List EmOp)
    (hp : pendingL st l k) (hops : ∀ op ∈ ops, addsL l op = false)
    (hpub : EmOp.pub k ∉ ops) :
    pendingL (runOps st ops).1 l k ∧ ∀ e ∈ (runOps st ops).2, l ∉ e := by
  induction ops generalizing st with
  | nil => exact ⟨hp, by simp [runOps]⟩
  | cons op ops ih =>
    have hopne : op ≠ EmOp.pub k := fun h => hpub (h ▸ List.mem_cons_self op ops)
    have hstep := stepOp_pendingL st l k op hp (hops op (List.mem_cons_self op ops)) hopne
    have hrest := ih (stepOp st op).1 hstep.1
      (fun o hmem => hops o (List.mem_cons_of_mem op hmem))
      (fun h => hpub (List.mem_cons_of_mem op h))
    refine ⟨hrest.1, ?_⟩
    intro e he2
    simp only [runOps, List.mem_cons] at he2
    rcases he2 with he2 | he2
    · rw [he2]; exact hstep.2
    · exact hrest.2 e he2

theorem runOps_cons (st : EmitterState) (op : EmOp) (ops : List EmOp) :
    runOps st (op :: ops) =
      ((runOps (stepOp st op).1 ops).1, (stepOp st op).2 :: (runOps (stepOp st op).1 ops).2) :=
  rfl

/-- The hub state after a prefix of operations, starting from an empty hub. -/
def afterPre (pre : List EmOp) : EmitterState := (runOps emptyEmitter pre).1

/-- The hub state right after the `once k l` subscription under scrutiny. -/
def afterSub (k : String) (l : Nat) (pre : List EmOp) : EmitterState :=
  (stepOp (afterPre pre) (EmOp.subOnce k l)).1

/-- The hub state after the further operations `q` (none of which publish
to `k`). -/
def afterQ (k : String) (l : Nat) (pre q : List EmOp) : EmitterState :=
  (runOps (afterSub k l pre) q).1

/-- The listeners fired by the first publish to `k` after the `once k l`
subscription. -/
def firstPubLog (k : String) (l : Nat) (pre q : List EmOp) : List Nat :=
  (stepOp (afterQ k l pre q) (EmOp.pub k)).2

/-- The hub state after that first publish to `k`. -/
def afterPub (k : String) (l : Nat) (pre q : List EmOp) : EmitterState :=
  (stepOp (afterQ k l pre q) (EmOp.pub k)).1

/-- C7: one-shot listeners fire exactly once. Each publish fires the
persistent listeners for the key in subscription order, then the one-shot
listeners in subscription order, then clears the one-shot entry. Over any
run from an empty hub consisting of operations `pre`, then `once k l`
(with `l` a fresh listener never subscribed by any other operation), then
operations `q` containing no publish to `k`, then a publish to `k`, then
operations `r`: the fired-listener logs decompose position by position;
`l` fires in no log of `pre`, `q` or `r` and fires exactly once in the log
of that first publish to `k`. If instead no publish to `k` ever follows
the subscription, `l` never fires at all. -/
theorem once_listener_fires_exactly_once
    (k : String) (l : Nat) (pre q r : List EmOp)
    (hpre : ∀ op ∈ pre, addsL l op = false)
    (hq : ∀ op ∈ q, addsL l op = false)
    (hr : ∀ op ∈ r, addsL l op = false)
    (hqk : EmOp.pub k ∉ q) :
    (∀ (st : EmitterState) (k' : String),
      Emitter.emit st k' = (lookupKey st.events k' ++ lookupKey st.eventsOnce k',
        { st with eventsOnce := removeKeyEntry st.eventsOnce k' })) ∧
    (runOps emptyEmitter (pre ++ EmOp.subOnce k l :: (q ++ EmOp.pub k :: r))).2
      = (runOps emptyEmitter pre).2
        ++ [] :: ((runOps (afterSub k l pre) q).2
          ++ firstPubLog k l pre q :: (runOps (afterPub k l pre q) r).2) ∧
    (∀ e ∈ (runOps emptyEmitter pre).2, l ∉ e) ∧
    (∀ e ∈ (runOps (afterSub k l pre) q).2, l ∉ e) ∧
    (firstPubLog k l pre q).count l = 1 ∧
    (∀ e ∈ (runOps (afterPub k l pre q) r).2, l ∉ e) ∧
    (∀ post, (∀ op ∈ post, addsL l op = false) → EmOp.pub k ∉ post →
      ∀ e ∈ (runOps emptyEmitter (pre ++ EmOp.subOnce k l :: post)).2, l ∉ e) := by
  have h1 := runOps_absentL emptyEmitter l pre (absentL_empty l) hpre
  have h2 := stepOp_subOnce_pendingL (runOps emptyEmitter pre).1 l k h1.1
  have h3 := runOps_pendingL (afterSub k l pre) l k q h2 hq hqk
  have h4 := stepOp_pub_fires (afterQ k l pre q) l k h3.1
  have h5 := runOps_absentL (afterPub k l pre q) l r h4.2 hr
  refine ⟨fun st k' => Emitter.emit_eq st k', ?_, h1.2, h3.2, h4.1, h5.2, ?_⟩
  · simp only [runOps_append, runOps_cons]
    simp [stepOp, afterSub, afterPre, afterQ, afterPub, firstPubLog]
  · intro post hpost hpubpost
    have h3p := runOps_pendingL (afterSub k l pre) l k post h2 hpost hpubpost
    intro e he
    simp only [runOps_append, runOps_cons, List.mem_append, List.mem_cons] at he
    rcases he with he | he | he
    · exact h1.2 e he
    · rw [he]
      simp [stepOp]
    · exact h3p.2 e he

/-- Witness for `once_listener_fires_exactly_once`: from an empty hub, run
`once "k" 0`, then `emit "j"` (a different key), then `emit "k"`: the
first publish to `"k"` fires listener `0` exactly once, and the logs are
`[[], [], [0], []]` for the subsequent run `[pub "k"]` appended. -/
theorem once_listener_fires_exactly_once_witness :
    (∀ op ∈ [EmOp.pub "j"], addsL 0 op = false) ∧
    EmOp.pub "k" ∉ [EmOp.pub "j"] ∧
    (firstPubLog "k" 0 [] [EmOp.pub "j"]).count 0 = 1 ∧
    (runOps emptyEmitter ([] ++ EmOp.subOnce "k" 0 :: ([EmOp.pub "j"] ++ EmOp.pub "k" :: [EmOp.pub "k"]))).2
      = (runOps emptyEmitter []).2
        ++ [] :: ((runOps (afterSub "k" 0 []) [EmOp.pub "j"]).2
          ++ firstPubLog "k" 0 [] [EmOp.pub "j"]
            :: (runOps (afterPub "k" 0 [] [EmOp.pub "j"]) [EmOp.pub "k"]).2) := by
  have h := once_listener_fires_exactly_once "k" 0 [] [EmOp.pub "j"] [EmOp.pub "k"]
    (by simp) (by simp [addsL]) (by simp [addsL]) (by simp)
  exact ⟨by simp [addsL], by simp, h.2.2.2.2.1, h.2.1⟩

/-! ## Connection lifecycle and authentication state (client.ts)

The client's observable effects are recorded in a trace: direct writes to
the private `#token` field, RPC envelopes passed to `#send`, and events
emitted on the client's own hub. Asynchronous settled promises are values:
the `#attempted` promise stored by `#init` is represented by its settled
outcome. The peer's reply to each RPC is a parameter. -/

/-- One observable client effect, in program order. -/
inductive TraceEv where
  | tokenWrite (t : Option Val)
  | rpcSend (method : String) (params : List Val)
  | emitEv (name : String)

/-- The client-instance state the claims touch: the `#token` field, the
settled outcome of the `#attempted` promise (`none` when `#init` has never
run), whether the pinger is started, and the effect trace. -/
structure ClientState where
  token : Option Val
  attempted : Option (Except SErr Unit)
  pingerRunning : Bool
  trace : List TraceEv

namespace Surreal

/-- `authenticate(token)` (client.ts 277-284): write the private `#token`
field first (a direct field write, not the setter — no re-init is
triggered), then send the `authenticate` RPC with `wait = false`, then
surface the error variant as `AuthenticationError`. -/
def authenticate (st : ClientState) (t : Val) (res : RpcResult) :
    ClientState × Except SErr Unit :=
  let st2 := { st with
    token := some t,
    trace := st.trace ++ [TraceEv.tokenWrite (some t), TraceEv.rpcSend "authenticate" [t]] }
  match res with
  | RpcResult.err m => (st2, Except.error ⟨ErrClass.authenticationError, m⟩)
  | RpcResult.ok _ => (st2, Except.ok ())

/-- `signup(vars)` (client.ts 239-246): send the `signup` RPC, surface the
error variant as `AuthenticationError`, otherwise store `res.result` into
`#token` and return it. -/
def signup (st : ClientState) (vars : Val) (res : RpcResult) :
    ClientState × Except SErr Val :=
  let st1 := { st with trace := st.trace ++ [TraceEv.rpcSend "signup" [vars]] }
  match res with
  | RpcResult.err m => (st1, Except.error ⟨ErrClass.authenticationError, m⟩)
  | RpcResult.ok v =>
    ({ st1 with token := some v, trace := st1.trace ++ [TraceEv.tokenWrite (some v)] },
      Except.ok v)

/-- `signin(vars)` (client.ts 253-260): send the `signin` RPC, surface the
error variant as `AuthenticationError`, otherwise store `res.result` into
`#token` and return it. -/
def signin (st : ClientState) (vars : Val) (res : RpcResult) :
    ClientState × Except SErr Val :=
  let st1 := { st with trace := st.trace ++ [TraceEv.rpcSend "signin" [vars]] }
  match res with
  | RpcResult.err m => (st1, Except.error ⟨ErrClass.authenticationError, m⟩)
  | RpcResult.ok v =>
    ({ st1 with token := some v, trace := st1.trace ++ [TraceEv.tokenWrite (some v)] },
      Except.ok v)

/-- The body of the promise built by `#init` (client.ts 448-459): if no
truthy token is set, resolve immediately; otherwise `await authenticate`
with the stored token and catch (ignore) any error. The promise therefore
always fulfills. -/
def initBody (st : ClientState) (peerAuth : RpcResult) :
    ClientState × Except SErr Unit :=
  match st.token with
  | none => (st, Except.ok ())
  | some t =>
    if jsTruthy t then
      match authenticate st t peerAuth with
      | (st', Except.ok _) => (st', Except.ok ())
      | (st', Except.error _) => (st', Except.ok ())
    else (st, Except.ok ())

/-- `#init()` (client.ts 448-459): store the settled re-assertion attempt
into `#attempted`. -/
def init (st : ClientState) (peerAuth : RpcResult) : ClientState :=
  let b := initBody st peerAuth
  { b.1 with attempted := some b.2 }

/-- The transport `open` event (client.ts 120-134): the first registered
handler calls `#init()`; the second emits `open` then `opened` and starts
the pinger. `peerAuth` is the peer's reply to the background
`authenticate` RPC, if one is sent. -/
def processOpen (st : ClientState) (peerAuth : RpcResult) : ClientState :=
  let st1 := init st peerAuth
  { st1 with
    trace := st1.trace ++ [TraceEv.emitEv "open", TraceEv.emitEv "opened"],
    pingerRunning := true }

/-- `wait()` (client.ts 184-192) once the transport is ready: `await
this.#ws.ready` has resolved, so the outcome is that of awaiting the
stored `#attempted` promise (`await undefined` resolves immediately when
`#init` has never run). -/
def waitAfterReady (st : ClientState) : Except SErr Unit :=
  match st.attempted with
  | some r => r
  | none => Except.ok ()

/-- Is a trace event the send of an `authenticate` RPC envelope? -/
def isAuthSend : TraceEv → Bool
  | TraceEv.rpcSend m _ => m == "authenticate"
  | _ => false

/-- How many `authenticate` RPC envelopes a trace contains. -/
def countAuthSends (tr : List TraceEv) : Nat := tr.countP isAuthSend

end Surreal

/-! ## C8: auth re-assertion on transport open -/

/-- C8: a transport `open` event while a truthy credential token is set
starts exactly one background `authenticate` attempt (one `authenticate`
envelope is added to the trace); whatever the peer replies, the stored
`#attempted` promise fulfills (the `catch` swallows the failure), the
`open` and `opened` events are still published after the attempt is
started, the pinger starts, and `wait()` — which awaits transport
readiness and then the stored attempt — resolves. -/
theorem open_reasserts_token_once (st : ClientState) (t : Val) (peerAuth : RpcResult)
    (htok : st.token = some t) (htr : jsTruthy t = true) :
    Surreal.countAuthSends (Surreal.processOpen st peerAuth).trace
      = Surreal.countAuthSends st.trace + 1 ∧
    (Surreal.processOpen st peerAuth).trace
      = st.trace ++ [TraceEv.tokenWrite (some t), TraceEv.rpcSend "authenticate" [t],
          TraceEv.emitEv "open", TraceEv.emitEv "opened"] ∧
    (Surreal.processOpen st peerAuth).attempted = some (Except.ok ()) ∧
    Surreal.waitAfterReady (Surreal.processOpen st peerAuth) = Except.ok () ∧
    (Surreal.processOpen st peerAuth).pingerRunning = true := by
  have htrace : (Surreal.processOpen st peerAuth).trace
      = st.trace ++ [TraceEv.tokenWrite (some t), TraceEv.rpcSend "authenticate" [t],
          TraceEv.emitEv "open", TraceEv.emitEv "opened"] := by
    cases peerAuth <;>
      simp [Surreal.processOpen, Surreal.init, Surreal.initBody, Surreal.authenticate,
        htok, htr]
  refine ⟨?_, htrace, ?_, ?_, ?_⟩
  · rw [htrace]
    simp [Surreal.countAuthSends, List.countP_append, List.countP_cons, Surreal.isAuthSend]
  · cases peerAuth <;>
      simp [Surreal.processOpen, Surreal.init, Surreal.initBody, Surreal.authenticate,
        htok, htr]
  · cases peerAuth <;>
      simp [Surreal.waitAfterReady, Surreal.processOpen, Surreal.init, Surreal.initBody,
        Surreal.authenticate, htok, htr]
  · simp [Surreal.processOpen]

/-- Witness for `open_reasserts_token_once`: a client holding token
`"tok"` whose background re-authentication is rejected by the peer. -/
theorem open_reasserts_token_once_witness :
    (⟨some (Val.str "tok"), none, false, []⟩ : ClientState).token = some (Val.str "tok") ∧
    jsTruthy (Val.str "tok") = true ∧
    Surreal.countAuthSends
        (Surreal.processOpen ⟨some (Val.str "tok"), none, false, []⟩ (RpcResult.err "bad")).trace
      = Surreal.countAuthSends (⟨some (Val.str "tok"), none, false, []⟩ : ClientState).trace + 1 ∧
    (Surreal.processOpen ⟨some (Val.str "tok"), none, false, []⟩ (RpcResult.err "bad")).attempted
      = some (Except.ok ()) ∧
    Surreal.waitAfterReady
        (Surreal.processOpen ⟨some (Val.str "tok"), none, false, []⟩ (RpcResult.err "bad"))
      = Except.ok () := by
  have h := open_reasserts_token_once ⟨some (Val.str "tok"), none, false, []⟩
    (Val.str "tok") (RpcResult.err "bad") rfl rfl
  exact ⟨rfl, rfl, h.1, h.2.2.1, h.2.2.2.1⟩

/-! ## C9: `authenticate` stores the token before sending, with no rollback -/

/-- C9: `authenticate(t)` writes the `#token` field and then sends the
RPC, in that order in the trace; the stored token equals `t` afterwards
whether the call resolves or is rejected by the peer (the rejection
surfaces as `AuthenticationError` but nothing rolls the token back); a
later re-assertion (`#init`, as run on reconnect) therefore re-sends
`authenticate` with the rejected token `t`. -/
theorem authenticate_stores_token_unconditionally (st : ClientState) (t : Val)
    (res : RpcResult) :
    (Surreal.authenticate st t res).1.token = some t ∧
    (Surreal.authenticate st t res).1.trace
      = st.trace ++ [TraceEv.tokenWrite (some t), TraceEv.rpcSend "authenticate" [t]] ∧
    (∀ m, res = RpcResult.err m →
      (Surreal.authenticate st t res).2
        = Except.error ⟨ErrClass.authenticationError, m⟩) ∧
    (jsTruthy t = true → ∀ peer2 : RpcResult,
      (Surreal.init (Surreal.authenticate st t res).1 peer2).trace
        = (Surreal.authenticate st t res).1.trace
          ++ [TraceEv.tokenWrite (some t), TraceEv.rpcSend "authenticate" [t]]) := by
  refine ⟨?_, ?_, ?_, ?_⟩
  · cases res <;> rfl
  · cases res <;> rfl
  · intro m hm
    subst hm
    rfl
  · intro htr peer2
    cases res <;> cases peer2 <;>
      simp [Surreal.init, Surreal.initBody, Surreal.authenticate, htr]

/-- Witness for `authenticate_stores_token_unconditionally`: the peer
rejects token `"tok"`, yet the client keeps it and re-asserts with it. -/
theorem authenticate_stores_token_unconditionally_witness :
    (Surreal.authenticate ⟨none, none, false, []⟩ (Val.str "tok") (RpcResult.err "denied")).1.token
      = some (Val.str "tok") ∧
    (Surreal.authenticate ⟨none, none, false, []⟩ (Val.str "tok") (RpcResult.err "denied")).2
      = Except.error ⟨ErrClass.authenticationError, "denied"⟩ ∧
    jsTruthy (Val.str "tok") = true ∧
    (Surreal.init
        (Surreal.authenticate ⟨none, none, false, []⟩ (Val.str "tok") (RpcResult.err "denied")).1
        (RpcResult.ok Val.null)).trace
      = (Surreal.authenticate ⟨none, none, false, []⟩ (Val.str "tok") (RpcResult.err "denied")).1.trace
        ++ [TraceEv.tokenWrite (some (Val.str "tok")),
            TraceEv.rpcSend "authenticate" [Val.str "tok"]] := by
  have h := authenticate_stores_token_unconditionally ⟨none, none, false, []⟩
    (Val.str "tok") (RpcResult.err "denied")
  exact ⟨h.1, h.2.2.1 "denied" rfl, rfl, h.2.2.2 rfl (RpcResult.ok Val.null)⟩

/-! ## C10: `signin` / `signup` store the newly issued token -/

/-- C10: a `signin` or `signup` that resolves with the peer's `Ok` token
`v` stores `v` into `#token` and returns it; a subsequent re-assertion
(`#init`, as run on reconnect) then sends `authenticate` with the newly
issued `v`, not whatever the caller had set before. -/
theorem signin_signup_store_new_token (st : ClientState) (vars v : Val) :
    (Surreal.signin st vars (RpcResult.ok v)).1.token = some v ∧
    (Surreal.signin st vars (RpcResult.ok v)).2 = Except.ok v ∧
    (Surreal.signup st vars (RpcResult.ok v)).1.token = some v ∧
    (Surreal.signup st vars (RpcResult.ok v)).2 = Except.ok v ∧
    (jsTruthy v = true → ∀ peer2 : RpcResult,
      (Surreal.init (Surreal.signin st vars (RpcResult.ok v)).1 peer2).trace
        = (Surreal.signin st vars (RpcResult.ok v)).1.trace
          ++ [TraceEv.tokenWrite (some v), TraceEv.rpcSend "authenticate" [v]]) := by
  refine ⟨rfl, rfl, rfl, rfl, ?_⟩
  intro htr peer2
  cases peer2 <;>
    simp [Surreal.init, Surreal.initBody, Surreal.authenticate, Surreal.signin, htr]

/-- Witness for `signin_signup_store_new_token`: the peer issues token
`"newtok"`; the next re-assertion uses it. -/
theorem signin_signup_store_new_token_witness :
    (Surreal.signin ⟨some (Val.str "old"), none, false, []⟩ Val.null
        (RpcResult.ok (Val.str "newtok"))).1.token = some (Val.str "newtok") ∧
    jsTruthy (Val.str "newtok") = true ∧
    (Surreal.init
        (Surreal.signin ⟨some (Val.str "old"), none, false, []⟩ Val.null
          (RpcResult.ok (Val.str "newtok"))).1 (RpcResult.ok Val.null)).trace
      = (Surreal.signin ⟨some (Val.str "old"), none, false, []⟩ Val.null
          (RpcResult.ok (Val.str "newtok"))).1.trace
        ++ [TraceEv.tokenWrite (some (Val.str "newtok")),
            TraceEv.rpcSend "authenticate" [Val.str "newtok"]] := by
  have h := signin_signup_store_new_token ⟨some (Val.str "old"), none, false, []⟩
    Val.null (Val.str "newtok")
  exact ⟨h.1, rfl, h.2.2.2.2 rfl (RpcResult.ok Val.null)⟩
